import Mathlib

/-!
Verification of the projection and performance-analytics engine of the
`ibkr` tracker application.  The TypeScript sources embedded here are
`src/frontend/src/utils/calculations.ts` and
`src/frontend/src/utils/analytics.ts`.

Modelling conventions:
* Calendar dates are integers counting days since 1970-01-01 (a Thursday),
  mirroring the one-day granularity of the ISO `yyyy-MM-dd` strings the
  code manipulates; `daysFromCivil` converts a civil date to that count.
* Money and rates are exact rationals (the source uses IEEE doubles).
* `Math.sqrt` and fractional `Math.pow` produce irrational numbers; where
  the source computes them the embedding carries the exact square
  (variance instead of volatility) or the exact base of the root
  (growth factor instead of daily rate), as documented at each definition.
-/

namespace Ibkr

/-- Days-since-epoch count of a civil date (the Howard Hinnant
`days_from_civil`, restricted to years ≥ 1583 so that plain `Nat`
arithmetic suffices).  `daysFromCivil 1970 1 1 = 0`. -/
def daysFromCivil (y m d : ℕ) : ℤ :=
  let yAdj : ℕ := y - (if m ≤ 2 then 1 else 0)
  let era : ℕ := yAdj / 400
  let yoe : ℕ := yAdj - era * 400
  let mp : ℕ := if 2 < m then m - 3 else m + 9
  let doy : ℕ := (153 * mp + 2) / 5 + d - 1
  let doe : ℕ := yoe * 365 + yoe / 4 - yoe / 100 + doy
  (era * 146097 + doe : ℤ) - 719468

/-- Day of week of a day number: 0 = Sunday, …, 6 = Saturday.
Day 0 (1970-01-01) is a Thursday, hence the offset 4. -/
def weekday (d : ℤ) : ℤ := (d + 4) % 7

/-- date-fns `isWeekend`. -/
def isWeekend (d : ℤ) : Bool := weekday d == 0 || weekday d == 6

/-- Source `calculations.ts`, `isBusinessDay(date) = !isWeekend(date)`
(Monday–Friday; the source consults no holiday table). -/
def isBusinessDay (d : ℤ) : Bool := !isWeekend d

/-- One step of the `addBusinessDays` loop: starting from `d`, advance one
calendar day at a time until a business day is reached.  Because at most
two consecutive days (Saturday, Sunday) are non-business, the source
`while` loop always stops at `d+1`, `d+2` or `d+3`. -/
def nextBusinessDayAfter (d : ℤ) : ℤ :=
  if isBusinessDay (d + 1) then d + 1
  else if isBusinessDay (d + 2) then d + 2
  else d + 3

/-- Source `calculations.ts`, `addBusinessDays(date, businessDays)`; advances one
calendar day at a time, counting only business days, until the count
reaches `businessDays`; with `0` it returns the input unchanged. -/
def addBusinessDays (d : ℤ) : ℕ → ℤ
  | 0 => d
  | n + 1 => addBusinessDays (nextBusinessDayAfter d) n

/-- Source `calculations.ts`, `countBusinessDays(startDate, endDate)`; number of
business days strictly after `startDate` and at or before `endDate`
(0 when `endDate ≤ startDate`). -/
def countBusinessDays (startDate endDate : ℤ) : ℕ :=
  ((List.range (endDate - startDate).toNat).map (fun i => startDate + 1 + i)).countP
    (fun d => isBusinessDay d)

/-! ## Data model (`types/trackers.ts`) -/

/-- The `CashFlow.type` field. -/
inductive CashFlowType where
  | deposit
  | withdrawal
deriving DecidableEq, Repr

/-- Source `types/trackers.ts`, `CashFlow` (the `id` and `source` tags play no role
in any computation and are omitted).  The TS `amount : number` is
unconstrained; the UI stores positive magnitudes with the sign carried by
`type`, while the analytics test-suite stores withdrawals as negative
numbers. -/
structure CashFlow where
  date : ℤ
  amount : ℚ
  type : CashFlowType
deriving DecidableEq, Repr

/-- Source `types/trackers.ts`, `ActualDataPoint` (without the optional
`source` tag). -/
structure ActualDataPoint where
  date : ℤ
  amount : ℚ
deriving DecidableEq, Repr

/-- Insert into a date-sorted list, after all entries with an equal or
earlier date. -/
def insertByDate (p : ActualDataPoint) : List ActualDataPoint → List ActualDataPoint
  | [] => [p]
  | q :: l => if p.date < q.date then p :: q :: l else q :: insertByDate p l

/-- The sort `[...data].sort((a, b) => dateA - dateB)`: stable sort of the actual
series by ascending date (JavaScript `Array.prototype.sort` is stable, so
entries with equal dates keep their original order). -/
def sortByDate : List ActualDataPoint → List ActualDataPoint
  | [] => []
  | p :: l => insertByDate p (sortByDate l)

/-! ## `analytics.ts` -/

/-- Source `analytics.ts`, `calculateReturn(startValue, endValue, cashFlows,
startDate, endDate)`.  Adds the raw stored `cf.amount` of every flow
dated strictly after `startDate` and at or before `endDate` to
`startValue`, then returns the percentage return against that adjusted
start, or 0 when the adjusted start is ≤ 0. -/
def calculateReturn (startValue endValue : ℚ) (cashFlows : List CashFlow)
    (startDate endDate : ℤ) : ℚ :=
  let relevant := cashFlows.filter (fun cf => startDate < cf.date && cf.date ≤ endDate)
  let adjustedStartValue := startValue + (relevant.map (fun cf => cf.amount)).sum
  if adjustedStartValue ≤ 0 then 0
  else (endValue - adjustedStartValue) / adjustedStartValue * 100

/-- The cumulative cash flow of `calculateDrawdown` at a date: the raw sum of
the stored amounts of all flows dated at or before `d` (no sign is
derived from the `type` field). -/
def cumulativeRawCashFlow (cashFlows : List CashFlow) (d : ℤ) : ℚ :=
  ((cashFlows.filter (fun cf => cf.date ≤ d)).map (fun cf => cf.amount)).sum

/-- Element of the `adjustedData` array of `calculateDrawdown`. -/
structure AdjustedPoint where
  date : ℤ
  amount : ℚ
  adjustedAmount : ℚ
deriving DecidableEq, Repr

/-- The cash-flow adjustment of `calculateDrawdown`: sort by date, then subtract
the cumulative raw cash-flow sum from each raw amount. -/
def adjustedData (actualData : List ActualDataPoint) (cashFlows : List CashFlow) :
    List AdjustedPoint :=
  (sortByDate actualData).map (fun p =>
    ⟨p.date, p.amount, p.amount - cumulativeRawCashFlow cashFlows p.date⟩)

/-- An entry of `DrawdownAnalysis.drawdownPeriods`. -/
structure DrawdownPeriod where
  startDate : ℤ
  endDate : Option ℤ
  drawdown : ℚ
  recovered : Bool
deriving DecidableEq, Repr

/-- Source `analytics.ts`, `DrawdownAnalysis` (dates as day numbers). -/
structure DrawdownAnalysis where
  maxDrawdown : ℚ
  maxDrawdownStartDate : Option ℤ
  maxDrawdownEndDate : Option ℤ
  currentDrawdown : ℚ
  drawdownPeriods : List DrawdownPeriod
deriving DecidableEq, Repr

/-- Mutable state of the `forEach` loop of `calculateDrawdown`. -/
structure DrawdownState where
  peak : ℚ
  peakDate : ℤ
  maxDrawdown : ℚ
  maxDrawdownStartDate : Option ℤ
  maxDrawdownEndDate : Option ℤ
  drawdownPeriods : List DrawdownPeriod
  currentPeriod : Option DrawdownPeriod
deriving Repr

/-- One iteration of the `forEach` of `calculateDrawdown` over `adjustedData`. -/
def drawdownStep (s : DrawdownState) (p : AdjustedPoint) : DrawdownState :=
  if s.peak < p.adjustedAmount then
    -- new peak: close any open drawdown period as recovered
    { s with
      peak := p.adjustedAmount
      peakDate := p.date
      drawdownPeriods :=
        match s.currentPeriod with
        | some cp => s.drawdownPeriods ++ [{ cp with endDate := some p.date, recovered := true }]
        | none => s.drawdownPeriods
      currentPeriod := none }
  else
    let drawdown := if 0 < s.peak then (s.peak - p.adjustedAmount) / s.peak * 100 else 0
    let currentPeriod :=
      match s.currentPeriod with
      | none =>
        if 0 < drawdown then
          some ⟨s.peakDate, none, drawdown, false⟩
        else none
      | some cp => some { cp with drawdown := max cp.drawdown drawdown }
    if s.maxDrawdown < drawdown then
      { s with
        maxDrawdown := drawdown
        maxDrawdownStartDate := some s.peakDate
        maxDrawdownEndDate := some p.date
        currentPeriod := currentPeriod }
    else
      { s with currentPeriod := currentPeriod }

/-- Initial state of the loop: the peak starts at the first adjusted
point. -/
def drawdownInit (a : AdjustedPoint) : DrawdownState :=
  ⟨a.adjustedAmount, a.date, 0, none, none, [], none⟩

/-- Final loop state for a non-empty adjusted series (the `forEach`
traverses the whole array, first point included). -/
def drawdownFold (a : AdjustedPoint) (rest : List AdjustedPoint) : DrawdownState :=
  (a :: rest).foldl drawdownStep (drawdownInit a)

/-- Source `analytics.ts`, `calculateDrawdown(actualData, cashFlows)`. -/
def calculateDrawdown (actualData : List ActualDataPoint)
    (cashFlows : List CashFlow) : DrawdownAnalysis :=
  match adjustedData actualData cashFlows with
  | [] => ⟨0, none, none, 0, []⟩
  | a :: rest =>
    let s := drawdownFold a rest
    let lastPoint := (a :: rest).getLast (List.cons_ne_nil a rest)
    let currentDrawdown :=
      if lastPoint.adjustedAmount < s.peak then (s.peak - lastPoint.adjustedAmount) / s.peak * 100
      else 0
    { maxDrawdown := s.maxDrawdown
      maxDrawdownStartDate := s.maxDrawdownStartDate
      maxDrawdownEndDate := s.maxDrawdownEndDate
      currentDrawdown := currentDrawdown
      drawdownPeriods := s.drawdownPeriods ++ s.currentPeriod.toList }

/-- Result of `calculateVolatility`.  The source returns
`volatility = Math.sqrt(variance)` and
`annualizedVolatility = volatility * Math.sqrt(252)`; those square roots
are irrational, so the embedding carries the exact squares:
`variance = volatility²` and `annualizedVariance = annualizedVolatility²
= 252 * variance`. -/
structure VolatilityAnalysis where
  variance : ℚ
  annualizedVariance : ℚ
  returns : List ℚ
deriving DecidableEq, Repr

/-- Source `analytics.ts`, `calculateVolatility(actualData, cashFlows,
periodDays)`: cash-flow-adjusted returns between consecutive sorted
points, trimmed by `slice(-periodDays)` when `periodDays > 0` and more
returns than `periodDays` exist; then mean, variance (mean of squared
deviations) and the annualization factor 252. -/
def calculateVolatility (actualData : List ActualDataPoint) (cashFlows : List CashFlow)
    (periodDays : ℕ) : VolatilityAnalysis :=
  if actualData.length < 2 then ⟨0, 0, []⟩
  else
    let sorted := sortByDate actualData
    let returns := (sorted.zip sorted.tail).map (fun pq =>
      calculateReturn pq.1.amount pq.2.amount cashFlows pq.1.date pq.2.date)
    let recentReturns :=
      if 0 < periodDays ∧ periodDays < returns.length then
        returns.drop (returns.length - periodDays)
      else returns
    if recentReturns.length = 0 then ⟨0, 0, []⟩
    else
      let meanReturn := (recentReturns.foldl (fun sum r => sum + r) (0 : ℚ)) / recentReturns.length
      let variance :=
        (recentReturns.foldl (fun sum r => sum + (r - meanReturn) * (r - meanReturn)) (0 : ℚ)) /
          recentReturns.length
      ⟨variance, variance * 252, recentReturns⟩

/-! ## `calculations.ts` -/

/-- Result of `calculateActualAverageIncrease`.  The source returns
`{ dailyRate, intervalPercentage }` with
`dailyRate = Math.pow(1 + totalIncreasePercent / 100, 1 / intervalDays) - 1`;
that fractional power is irrational, so the embedding carries its exact
base `growthFactor = 1 + totalIncreasePercent / 100` (the exponent of the root
is `1 / intervalDays`, taken from the configuration argument). -/
structure ActualIncreaseResult where
  growthFactor : ℚ
  intervalPercentage : ℚ
deriving DecidableEq, Repr

/-- Source `calculations.ts`, `calculateActualAverageIncrease(actualData,
intervalDays)`.  Returns `none` for fewer than two points or a
non-positive first sorted amount; otherwise uses only the first and last
sorted amounts (the `getD` defaults are unreachable then) and consults no
cash-flow list — the function has no such parameter. -/
def calculateActualAverageIncrease (actualData : List ActualDataPoint)
    (intervalDays : ℕ) : Option ActualIncreaseResult :=
  if actualData.length < 2 then none
  else
    let sorted := sortByDate actualData
    let firstValue := ((sorted.head?).map (fun p => p.amount)).getD 0
    let lastValue := ((sorted.getLast?).map (fun p => p.amount)).getD 0
    if firstValue ≤ 0 then none
    else
      let totalIncreasePercent := (lastValue - firstValue) / firstValue * 100
      some ⟨1 + totalIncreasePercent / 100, totalIncreasePercent⟩

/-- A point of the dense base series fed to `calculateProjection`
(`{ date: string; amount: number }`). -/
structure BasePoint where
  date : ℤ
  amount : ℚ
deriving DecidableEq, Repr

/-- The helper `getCumulativeCashFlow` of `calculateProjection`: sum of flows
dated at or before `d`, signed by `type` (`deposit` adds, `withdrawal`
subtracts the stored amount). -/
def getCumulativeCashFlow (cashFlows : List CashFlow) (d : ℤ) : ℚ :=
  ((cashFlows.filter (fun cf => cf.date ≤ d)).map (fun cf =>
    match cf.type with
    | CashFlowType.deposit => cf.amount
    | CashFlowType.withdrawal => -cf.amount)).sum

/-- The sequential body of `calculateProjection` for indices ≥ 1, carrying
the date and computed value of the previous point (`result.get(prevPoint.date)`
always yields the value computed at the previous index, because that index
performed the most recent `set` for that date). -/
def calculateProjectionAux (growthRatePerDay : ℚ) (cashFlows : List CashFlow) :
    ℤ → ℚ → List BasePoint → List (ℤ × ℚ)
  | _, _, [] => []
  | prevDate, prevValue, p :: rest =>
    let newCashFlows :=
      getCumulativeCashFlow cashFlows p.date - getCumulativeCashFlow cashFlows prevDate
    let businessDaysBetween := countBusinessDays prevDate p.date
    let growthMultiplier := (1 + growthRatePerDay) ^ businessDaysBetween
    let value := prevValue * growthMultiplier + newCashFlows
    (p.date, value) :: calculateProjectionAux growthRatePerDay cashFlows p.date value rest

/-- Source `calculations.ts`, `calculateProjection(baseData, startingAmount,
growthRatePerDay, cashFlows)`.  The output is the ordered list of
`result.set(date, value)` writes; the returned `Map` holds, for each date,
the last write. -/
def calculateProjection (baseData : List BasePoint) (startingAmount growthRatePerDay : ℚ)
    (cashFlows : List CashFlow) : List (ℤ × ℚ) :=
  match baseData with
  | [] => []
  | p :: rest =>
    let value := startingAmount + getCumulativeCashFlow cashFlows p.date
    (p.date, value) :: calculateProjectionAux growthRatePerDay cashFlows p.date value rest

/-- The fields of `TrackerConfig` consumed by `calculateProjectedValues`. -/
structure TrackerConfig where
  startDate : ℤ
  startingAmount : ℚ
  projectedIncreasePercent : ℚ
  intervalDays : ℕ
deriving DecidableEq, Repr

/-- A milestone of `calculateProjectedValues`. -/
structure Milestone where
  date : ℤ
  amount : ℚ
  businessDayNumber : ℕ
deriving DecidableEq, Repr

/-- Source `types/trackers.ts`, `ProjectedDataPoint`. -/
structure ProjectedDataPoint where
  date : ℤ
  amount : ℚ
  dayNumber : ℕ
deriving DecidableEq, Repr

/-- The milestone `while` loop of `calculateProjectedValues`: while the
prior milestone date is before `endD`, advance it by `intervalDays`
business days, stop if that passes `endD`, otherwise compound the amount
and append.  `fuel` bounds the iteration count; with `intervalDays ≥ 1`
each step advances the date by at least one calendar day, so the fuel
chosen by `milestones` is never exhausted (with `intervalDays = 0` the
source loop does not terminate). -/
def milestonesAux (intervalDays : ℕ) (increasePercent : ℚ) (endD : ℤ) :
    ℕ → ℤ → ℚ → ℕ → List Milestone
  | 0, _, _, _ => []
  | fuel + 1, milestoneDate, currentAmount, businessDaysElapsed =>
    if milestoneDate < endD then
      let nextDate := addBusinessDays milestoneDate intervalDays
      if endD < nextDate then []
      else
        let nextAmount := currentAmount * (1 + increasePercent / 100)
        ⟨nextDate, nextAmount, businessDaysElapsed + intervalDays⟩ ::
          milestonesAux intervalDays increasePercent endD fuel nextDate nextAmount
            (businessDaysElapsed + intervalDays)
    else []

/-- The milestone list of `calculateProjectedValues`: the starting
milestone followed by the interval milestones. -/
def milestones (config : TrackerConfig) (endD : ℤ) : List Milestone :=
  ⟨config.startDate, config.startingAmount, 0⟩ ::
    milestonesAux config.intervalDays config.projectedIncreasePercent endD
      ((endD - config.startDate).toNat + 1) config.startDate config.startingAmount 0

/-- The downward scan `for (let i = length - 1; i >= 0; i--)` that finds
the last milestone at or before the current date (0 when none matches). -/
def findMilestoneIndexAux (ms : List Milestone) (d : ℤ) : ℕ → ℕ
  | 0 => 0
  | i + 1 => if (ms[i]?).any (fun m => m.date ≤ d) then i else findMilestoneIndexAux ms d i

/-- Index of the last milestone reached or passed at date `d`. -/
def findMilestoneIndex (ms : List Milestone) (d : ℤ) : ℕ :=
  findMilestoneIndexAux ms d ms.length

/-- The per-day amount of `calculateProjectedValues`: determined by the
amounts of the bracketing milestones, flat after the last milestone, exact on a milestone
date, and otherwise linearly interpolated by the ratio of business days
(the `none` fallback 0 is unreachable — the milestone list is never
empty). -/
def interpolatedAmount (ms : List Milestone) (d : ℤ) : ℚ :=
  let idx := findMilestoneIndex ms d
  match ms[idx]? with
  | none => 0
  | some fromMilestone =>
    match ms[idx + 1]? with
    | none => fromMilestone.amount
    | some toMilestone =>
      if d = toMilestone.date then toMilestone.amount
      else
        let businessDaysBetween := countBusinessDays fromMilestone.date toMilestone.date
        let businessDaysFrom := countBusinessDays fromMilestone.date d
        let progress : ℚ :=
          if 0 < businessDaysBetween then (businessDaysFrom : ℚ) / businessDaysBetween else 0
        fromMilestone.amount + (toMilestone.amount - fromMilestone.amount) * progress

/-- Source `calculations.ts`, `calculateProjectedValues(config, endDate)` — one
point per calendar day from `config.startDate` to `endD` inclusive (empty
when `endD` precedes the start date; the source defaults a missing
`endDate` to one year after the start, modelled by passing it
explicitly). -/
def calculateProjectedValues (config : TrackerConfig) (endD : ℤ) : List ProjectedDataPoint :=
  let ms := milestones config endD
  let numDays := if endD < config.startDate then 0 else (endD - config.startDate).toNat + 1
  (List.range numDays).map (fun (i : ℕ) =>
    { date := config.startDate + (i : ℤ)
      amount := interpolatedAmount ms (config.startDate + (i : ℤ))
      dayNumber := i })

/-! ## Spec-side definitions

The following definitions transcribe the wording of the specification (and the
claims built on it); they are compared against the source-embedded
functions above. -/

/-- Spec glossary, net cash flow: a deposit counts as its (non-negative)
magnitude, a withdrawal as the negated magnitude. -/
def signedMagnitude (cf : CashFlow) : ℚ :=
  match cf.type with
  | CashFlowType.deposit => |cf.amount|
  | CashFlowType.withdrawal => -|cf.amount|

/-- Spec: net cash flow over the half-open date range `(startDate,
endDate]` — the signed sum of deposits (positive) and withdrawals
(negative). -/
def specNetCashFlow (cashFlows : List CashFlow) (startDate endDate : ℤ) : ℚ :=
  ((cashFlows.filter (fun cf => startDate < cf.date && cf.date ≤ endDate)).map
    signedMagnitude).sum

/-- Spec: cumulative net cash flow as of date `d` (signed, deposits
positive, withdrawals negative). -/
def specCumulativeNetCashFlow (cashFlows : List CashFlow) (d : ℤ) : ℚ :=
  ((cashFlows.filter (fun cf => cf.date ≤ d)).map signedMagnitude).sum

/-- Spec: cash-flow-adjusted return —
`adjustedStart = startValue + netCashFlow((start, end])`,
`return% = (end − adjustedStart)/adjustedStart × 100`, 0 when
`adjustedStart ≤ 0`. -/
def specReturn (startValue endValue : ℚ) (cashFlows : List CashFlow)
    (startDate endDate : ℤ) : ℚ :=
  let adjustedStart := startValue + specNetCashFlow cashFlows startDate endDate
  if adjustedStart ≤ 0 then 0
  else (endValue - adjustedStart) / adjustedStart * 100

/-- Spec: the cash-flow-neutralized value of an actual point — its raw
amount minus the signed cumulative net cash flow as of its date. -/
def specNeutralized (cashFlows : List CashFlow) (p : ActualDataPoint) : ℚ :=
  p.amount - specCumulativeNetCashFlow cashFlows p.date

/-- Every stored amount carries the sign of its `type`: deposits are
stored non-negative and withdrawals non-positive.  This is the convention
of the `CashFlow` type declaration and of the analytics test-suite (the
cash-flow dialog instead stores positive magnitudes for both types). -/
def SignConsistent (cashFlows : List CashFlow) : Prop :=
  ∀ cf ∈ cashFlows,
    (cf.type = CashFlowType.deposit → 0 ≤ cf.amount) ∧
    (cf.type = CashFlowType.withdrawal → cf.amount ≤ 0)

/-- Spec: the step-wise cash-flow-adjusted returns between consecutive
points of the date-sorted actual series, each step computed by the
specified cash-flow-adjusted return (`specReturn`, with the net cash flow
signed by type: deposits positive, withdrawals negative). -/
def specStepReturns (actualData : List ActualDataPoint) (cashFlows : List CashFlow) :
    List ℚ :=
  let sorted := sortByDate actualData
  (sorted.zip sorted.tail).map (fun pq =>
    specReturn pq.1.amount pq.2.amount cashFlows pq.1.date pq.2.date)

/-- The most recent `n` entries of a list (the whole list when it has at
most `n` entries). -/
def lastN (n : ℕ) (l : List ℚ) : List ℚ := l.drop (l.length - n)

/-- Spec: the step returns kept for the volatility computation — the most
recent `periodDays` steps when a positive period is given, otherwise all
of them. -/
def specTrimmedReturns (periodDays : ℕ) (rs : List ℚ) : List ℚ :=
  if 0 < periodDays then lastN periodDays rs else rs

/-- Arithmetic mean of a list of rationals. -/
def specMean (l : List ℚ) : ℚ := l.sum / l.length

/-- Variance of a list of rationals: the mean of the squared deviations
from the mean (the square of the standard deviation of the
sample). -/
def specVariance (l : List ℚ) : ℚ :=
  ((l.map (fun r => (r - specMean l) ^ 2)).sum) / l.length

/-- Spec §4.4, step 2–3: product over consecutive sorted pairs `(p, q)` of
`(q.amount − netCashFlow((p.date, q.date])) / p.amount` — the cumulative
cash-flow-neutral return of the actual series. -/
def specCumulativeReturn (actualData : List ActualDataPoint)
    (cashFlows : List CashFlow) : ℚ :=
  let sorted := sortByDate actualData
  ((sorted.zip sorted.tail).map (fun pq =>
    (pq.2.amount - specNetCashFlow cashFlows pq.1.date pq.2.date) / pq.1.amount)).prod

/-- Spec §4.4, step 3: total business days elapsed — the sum of the
business days between consecutive sorted points. -/
def specTotalBusinessDays (actualData : List ActualDataPoint) : ℕ :=
  let sorted := sortByDate actualData
  ((sorted.zip sorted.tail).map (fun pq => countBusinessDays pq.1.date pq.2.date)).sum

/-- Pure compound growth over a base date series: the first value is the
starting amount, and each later value multiplies the previous one by
`(1 + rate)` per elapsed business day.  This is what the compositor
produces when the cash-flow list is empty. -/
def pureGrowthAux (growthRatePerDay : ℚ) : ℤ → ℚ → List BasePoint → List (ℤ × ℚ)
  | _, _, [] => []
  | prevDate, prevValue, p :: rest =>
    let value := prevValue * (1 + growthRatePerDay) ^ countBusinessDays prevDate p.date
    (p.date, value) :: pureGrowthAux growthRatePerDay p.date value rest

/-- Entry point of `pureGrowthAux`: value `startingAmount` on the first
base date. -/
def pureGrowth (baseData : List BasePoint) (startingAmount growthRatePerDay : ℚ) :
    List (ℤ × ℚ) :=
  match baseData with
  | [] => []
  | p :: rest => (p.date, startingAmount) :: pureGrowthAux growthRatePerDay p.date startingAmount rest

/-- Weekend-observed shifting of a fixed-date holiday: a Saturday holiday
is observed the preceding Friday, a Sunday holiday the following
Monday. -/
def observedShift (d : ℤ) : ℤ :=
  if weekday d = 6 then d - 1 else if weekday d = 0 then d + 1 else d

/-- Christmas Day of a given year. -/
def christmasDay (y : ℕ) : ℤ := daysFromCivil y 12 25

/-- The observed Christmas market holiday of a given year (the spec §4.1
recognized-holiday table, instantiated at Christmas). -/
def observedChristmas (y : ℕ) : ℤ := observedShift (christmasDay y)

/-! ## Calendar lemmas -/

theorem isBusinessDay_iff (d : ℤ) :
    isBusinessDay d = true ↔ ((d + 4) % 7 ≠ 0 ∧ (d + 4) % 7 ≠ 6) := by
  simp [isBusinessDay, isWeekend, weekday, not_or]

theorem isBusinessDay_eq_false_iff (d : ℤ) :
    isBusinessDay d = false ↔ ((d + 4) % 7 = 0 ∨ (d + 4) % 7 = 6) := by
  rw [← Bool.not_eq_true, isBusinessDay_iff]
  tauto

theorem nextBusinessDayAfter_isBusinessDay (d : ℤ) :
    isBusinessDay (nextBusinessDayAfter d) = true := by
  unfold nextBusinessDayAfter
  split
  · assumption
  · split
    · assumption
    · rename_i h1 h2
      rw [Bool.not_eq_true, isBusinessDay_eq_false_iff] at h1 h2
      rw [isBusinessDay_iff]
      omega

theorem lt_nextBusinessDayAfter (d : ℤ) : d < nextBusinessDayAfter d := by
  unfold nextBusinessDayAfter
  split
  · omega
  · split <;> omega

theorem le_addBusinessDays (d : ℤ) (n : ℕ) : d ≤ addBusinessDays d n := by
  induction n generalizing d with
  | zero => exact le_refl d
  | succ k ih =>
    calc d ≤ nextBusinessDayAfter d := (lt_nextBusinessDayAfter d).le
    _ ≤ addBusinessDays (nextBusinessDayAfter d) k := ih _
    _ = addBusinessDays d (k + 1) := rfl

theorem lt_addBusinessDays (d : ℤ) (n : ℕ) (hn : 1 ≤ n) : d < addBusinessDays d n := by
  obtain ⟨k, rfl⟩ := Nat.exists_eq_add_of_le hn
  calc d < nextBusinessDayAfter d := lt_nextBusinessDayAfter d
  _ ≤ addBusinessDays (nextBusinessDayAfter d) k := le_addBusinessDays _ k
  _ = addBusinessDays d (1 + k) := by rw [Nat.add_comm 1 k]; rfl

theorem addBusinessDays_isBusinessDay (d : ℤ) (n : ℕ) (hn : 1 ≤ n) :
    isBusinessDay (addBusinessDays d n) = true := by
  induction n generalizing d with
  | zero => omega
  | succ k ih =>
    cases k with
    | zero => exact nextBusinessDayAfter_isBusinessDay d
    | succ m => exact ih (nextBusinessDayAfter d) (Nat.succ_le_succ (Nat.zero_le m))

/-- C5 counterexample: Christmas 2025 falls on a Thursday (so it is its own
observed date) and is a recognized market holiday per the claim, yet the
source `isBusinessDay` — which consults no holiday table — classifies it
as a business day, and `addBusinessDays` lands on it. -/
theorem isBusinessDay_christmas_2025 :
    observedChristmas 2025 = christmasDay 2025 ∧
      isBusinessDay (christmasDay 2025) = true ∧
      addBusinessDays (daysFromCivil 2025 12 24) 1 = christmasDay 2025 := by
  refine ⟨by decide, by decide, by decide⟩

/-- C5 (amended): `isBusinessDay` returns `false` exactly for Saturdays and
Sundays — the source consults no holiday table — and consequently for every
`n ≥ 1` the date returned by `addBusinessDays` is never a weekend day
(it can land on a recognized market holiday, as the counterexample
shows). -/
theorem isBusinessDay_weekend_only_addBusinessDays :
    ∀ d : ℤ, (isBusinessDay d = false ↔ (weekday d = 0 ∨ weekday d = 6)) ∧
      ∀ n : ℕ, 1 ≤ n → isWeekend (addBusinessDays d n) = false := by
  intro d
  constructor
  · exact isBusinessDay_eq_false_iff d
  · intro n hn
    have h := addBusinessDays_isBusinessDay d n hn
    simpa [isBusinessDay] using h

/-- Closed instance of the C5 theorem at concrete inputs. -/
theorem isBusinessDay_weekend_only_witness :
    (isBusinessDay (2 : ℤ) = false ↔ (weekday 2 = 0 ∨ weekday 2 = 6)) ∧
      (1 ≤ 3 ∧ isWeekend (addBusinessDays 2 3) = false) :=
  ⟨(isBusinessDay_weekend_only_addBusinessDays 2).1,
   by norm_num, (isBusinessDay_weekend_only_addBusinessDays 2).2 3 (by norm_num)⟩

/-! ## Cash-flow sign lemmas, claims C1 and C2 -/

theorem signedMagnitude_eq_amount {cf : CashFlow}
    (hd : cf.type = CashFlowType.deposit → 0 ≤ cf.amount)
    (hw : cf.type = CashFlowType.withdrawal → cf.amount ≤ 0) :
    signedMagnitude cf = cf.amount := by
  unfold signedMagnitude
  cases h : cf.type
  · rw [abs_of_nonneg (hd h)]
  · rw [abs_of_nonpos (hw h)]
    ring

theorem sum_map_signedMagnitude (cfs : List CashFlow)
    (h : ∀ cf ∈ cfs, signedMagnitude cf = cf.amount) :
    (cfs.map signedMagnitude).sum = (cfs.map (fun cf => cf.amount)).sum := by
  induction cfs with
  | nil => rfl
  | cons c l ih =>
    simp only [List.map_cons, List.sum_cons]
    rw [h c (List.mem_cons_self c l), ih (fun cf hcf => h cf (List.mem_cons_of_mem c hcf))]

/-- C1 counterexample: the cash-flow dialog stores a withdrawal as a
positive magnitude with `type = withdrawal`; on such a flow
`calculateReturn` adds the magnitude to the start value instead of
subtracting it, so its result differs from the claimed formula (which
counts withdrawals negatively).  Start 10000, end 10000, a 1000
withdrawal inside `(0, 4]`. -/
theorem calculateReturn_magnitude_withdrawal_mismatch :
    calculateReturn 10000 10000 [⟨2, 1000, CashFlowType.withdrawal⟩] 0 4 = -100 / 11 ∧
      specReturn 10000 10000 [⟨2, 1000, CashFlowType.withdrawal⟩] 0 4 = 100 / 9 ∧
      (-100 / 11 : ℚ) ≠ 100 / 9 := by
  refine ⟨?_, ?_, ?_⟩
  · norm_num [calculateReturn, List.filter]
  · norm_num [specReturn, specNetCashFlow, signedMagnitude, List.filter]
  · norm_num

theorem calculateReturn_eq_specReturn_aux
    (startValue endValue : ℚ) (cashFlows : List CashFlow) (startDate endDate : ℤ)
    (h : SignConsistent cashFlows) :
    calculateReturn startValue endValue cashFlows startDate endDate =
      specReturn startValue endValue cashFlows startDate endDate := by
  unfold calculateReturn specReturn specNetCashFlow
  rw [sum_map_signedMagnitude]
  intro cf hcf
  have hmem := List.mem_of_mem_filter hcf
  exact signedMagnitude_eq_amount (h cf hmem).1 (h cf hmem).2

/-- C1 (amended): whenever every stored amount carries the sign of its
`type` (deposits non-negative, withdrawals non-positive — the convention of
the `CashFlow` declaration and the analytics tests), `calculateReturn`
computes exactly the claimed formula: adjusted start = start value plus the
signed net cash flow over `(startDate, endDate]`, 0 when that is ≤ 0, else
the percentage return against it. -/
theorem calculateReturn_eq_specReturn_of_signConsistent
    (startValue endValue : ℚ) (cashFlows : List CashFlow) (startDate endDate : ℤ)
    (h : SignConsistent cashFlows) :
    calculateReturn startValue endValue cashFlows startDate endDate =
      specReturn startValue endValue cashFlows startDate endDate :=
  calculateReturn_eq_specReturn_aux startValue endValue cashFlows startDate endDate h

/-- Closed instance of the C1 theorem at a concrete sign-consistent
input. -/
theorem calculateReturn_eq_specReturn_witness :
    SignConsistent [⟨2, -500, CashFlowType.withdrawal⟩] ∧
      calculateReturn 10000 9500 [⟨2, -500, CashFlowType.withdrawal⟩] 0 4 =
        specReturn 10000 9500 [⟨2, -500, CashFlowType.withdrawal⟩] 0 4 := by
  have hsc : SignConsistent [⟨2, -500, CashFlowType.withdrawal⟩] := by
    intro cf hcf
    rw [List.mem_singleton] at hcf
    subst hcf
    exact ⟨(fun h => nomatch h), (fun _ => by norm_num)⟩
  exact ⟨hsc, calculateReturn_eq_specReturn_of_signConsistent 10000 9500
    [⟨2, -500, CashFlowType.withdrawal⟩] 0 4 hsc⟩

/-- C2 counterexample: with a withdrawal stored as a positive magnitude
(as the cash-flow dialog creates it), `calculateDrawdown` subtracts the
magnitude from an account value that already decreased by the withdrawal:
the neutralized value drops to 6000 instead of the claimed 10000, and the
withdrawal is misread as a 40% drawdown. -/
theorem adjustedData_magnitude_withdrawal_mismatch :
    adjustedData [⟨0, 10000⟩, ⟨1, 8000⟩] [⟨1, 2000, CashFlowType.withdrawal⟩] =
        [⟨0, 10000, 10000⟩, ⟨1, 8000, 6000⟩] ∧
      specNeutralized [⟨1, 2000, CashFlowType.withdrawal⟩] ⟨1, 8000⟩ = 10000 ∧
      ((6000 : ℚ) ≠ 10000) ∧
      (calculateDrawdown [⟨0, 10000⟩, ⟨1, 8000⟩]
        [⟨1, 2000, CashFlowType.withdrawal⟩]).maxDrawdown = 40 := by
  refine ⟨?_, ?_, ?_, ?_⟩
  · norm_num [adjustedData, sortByDate, insertByDate, cumulativeRawCashFlow, List.filter]
  · norm_num [specNeutralized, specCumulativeNetCashFlow, signedMagnitude, List.filter]
  · norm_num
  · norm_num [calculateDrawdown, adjustedData, sortByDate, insertByDate, cumulativeRawCashFlow,
      drawdownFold, drawdownInit, drawdownStep, List.filter]

/-- C2 (amended): when stored amounts are sign-consistent with their
`type`, the series `calculateDrawdown` compares against the running peak
is exactly the claimed one — the raw amount of each sorted point minus the
signed cumulative net cash flow at its date; and a cash flow alone leaves
the drawdown-relevant value unchanged (a deposit `c.amount ≥ 0` raises the
raw amount by `c.amount`, a signed withdrawal `c.amount ≤ 0` lowers it by
`-c.amount`, and the neutralized value is identical in both cases — so a
deposit alone never increases it and a withdrawal alone never decreases
it). -/
theorem adjustedData_specNeutralized_of_signConsistent
    (actualData : List ActualDataPoint) (cashFlows : List CashFlow)
    (h : SignConsistent cashFlows) :
    adjustedData actualData cashFlows =
        (sortByDate actualData).map (fun p => ⟨p.date, p.amount, specNeutralized cashFlows p⟩) ∧
      ∀ (p : ActualDataPoint) (c : CashFlow), c.date ≤ p.date →
        (p.amount + c.amount) - cumulativeRawCashFlow (c :: cashFlows) p.date =
          p.amount - cumulativeRawCashFlow cashFlows p.date := by
  constructor
  · unfold adjustedData specNeutralized specCumulativeNetCashFlow cumulativeRawCashFlow
    refine List.map_congr_left (fun p _ => ?_)
    rw [sum_map_signedMagnitude]
    intro cf hcf
    have hmem := List.mem_of_mem_filter hcf
    exact signedMagnitude_eq_amount (h cf hmem).1 (h cf hmem).2
  · intro p c hc
    unfold cumulativeRawCashFlow
    rw [List.filter_cons_of_pos (by simpa using hc)]
    simp only [List.map_cons, List.sum_cons]
    ring

/-- Closed instance of the C2 theorem at a concrete sign-consistent
input. -/
theorem adjustedData_specNeutralized_witness :
    SignConsistent [⟨1, -2000, CashFlowType.withdrawal⟩] ∧
      adjustedData [⟨0, 10000⟩, ⟨1, 8000⟩] [⟨1, -2000, CashFlowType.withdrawal⟩] =
        (sortByDate [⟨0, 10000⟩, ⟨1, 8000⟩]).map
          (fun p => ⟨p.date, p.amount, specNeutralized [⟨1, -2000, CashFlowType.withdrawal⟩] p⟩) := by
  have hsc : SignConsistent [⟨1, -2000, CashFlowType.withdrawal⟩] := by
    intro cf hcf
    rw [List.mem_singleton] at hcf
    subst hcf
    exact ⟨(fun h => nomatch h), (fun _ => by norm_num)⟩
  exact ⟨hsc, (adjustedData_specNeutralized_of_signConsistent [⟨0, 10000⟩, ⟨1, 8000⟩]
    [⟨1, -2000, CashFlowType.withdrawal⟩] hsc).1⟩

/-! ## Sort lemmas -/

theorem insertByDate_length (p : ActualDataPoint) (l : List ActualDataPoint) :
    (insertByDate p l).length = l.length + 1 := by
  induction l with
  | nil => rfl
  | cons q t ih =>
    unfold insertByDate
    split
    · rfl
    · simpa using ih

theorem sortByDate_length (l : List ActualDataPoint) :
    (sortByDate l).length = l.length := by
  induction l with
  | nil => rfl
  | cons p t ih =>
    unfold sortByDate
    rw [insertByDate_length, ih, List.length_cons]

/-! ## Claims C3 and C10 — the cash-flow compositor -/

theorem calculateProjectionAux_nil_cashFlows (r : ℚ) :
    ∀ (l : List BasePoint) (prevDate : ℤ) (prevValue : ℚ),
      calculateProjectionAux r [] prevDate prevValue l = pureGrowthAux r prevDate prevValue l := by
  intro l
  induction l with
  | nil => intro _ _; rfl
  | cons p rest ih =>
    intro prevDate prevValue
    simp only [calculateProjectionAux, pureGrowthAux, getCumulativeCashFlow, List.filter_nil,
      List.map_nil, List.sum_nil, sub_zero, add_zero]
    rw [ih]

/-- C3 counterexample: the compositor never reads the amounts of the base
series.  On the one-point base series valued 5, with starting amount
10000, zero rate and no cash flows, the output value is 10000, not the
base value 5 the claim requires. -/
theorem calculateProjection_ignores_base_amounts_cx :
    calculateProjection [⟨0, 5⟩] 10000 0 [] = [(0, 10000)] ∧ ((10000 : ℚ) ≠ 5) := by
  constructor
  · norm_num [calculateProjection, calculateProjectionAux, getCumulativeCashFlow, List.filter]
  · norm_num

/-- C3 (amended): running `calculateProjection` with an empty cash-flow
list yields, for every base series, the pure compound-growth series —
the starting amount on the first date and, at each later date, the
previous value multiplied by `(1 + rate)` per elapsed business day.  The
amounts of the base series are never consulted (they would agree with the
output only when the base series itself is such a compound-growth
series). -/
theorem calculateProjection_empty_cashFlows_pureGrowth
    (baseData : List BasePoint) (startingAmount growthRatePerDay : ℚ) :
    calculateProjection baseData startingAmount growthRatePerDay [] =
      pureGrowth baseData startingAmount growthRatePerDay := by
  cases baseData with
  | nil => rfl
  | cons p rest =>
    simp only [calculateProjection, pureGrowth, getCumulativeCashFlow, List.filter_nil,
      List.map_nil, List.sum_nil, add_zero]
    rw [calculateProjectionAux_nil_cashFlows]

theorem calculateProjectionAux_dates_only (r : ℚ) (cashFlows : List CashFlow) :
    ∀ (l1 l2 : List BasePoint), l1.map BasePoint.date = l2.map BasePoint.date →
      ∀ (prevDate : ℤ) (prevValue : ℚ),
        calculateProjectionAux r cashFlows prevDate prevValue l1 =
          calculateProjectionAux r cashFlows prevDate prevValue l2 := by
  intro l1
  induction l1 with
  | nil =>
    intro l2 h _ _
    cases l2 with
    | nil => rfl
    | cons q t => simp at h
  | cons p rest ih =>
    intro l2 h prevDate prevValue
    cases l2 with
    | nil => simp at h
    | cons q rest2 =>
      simp only [List.map_cons, List.cons.injEq] at h
      obtain ⟨hdq, hrest⟩ := h
      simp only [calculateProjectionAux]
      rw [hdq, ih rest2 hrest]

/-- C10: the output of the compositor depends only on the dates of the base
series —
two base series with the same date sequence but arbitrary amounts produce
identical outputs for every starting amount, growth rate and cash-flow
list. -/
theorem calculateProjection_depends_only_on_dates
    (base1 base2 : List BasePoint)
    (h : base1.map BasePoint.date = base2.map BasePoint.date)
    (startingAmount growthRatePerDay : ℚ) (cashFlows : List CashFlow) :
    calculateProjection base1 startingAmount growthRatePerDay cashFlows =
      calculateProjection base2 startingAmount growthRatePerDay cashFlows := by
  cases base1 with
  | nil =>
    cases base2 with
    | nil => rfl
    | cons q t => simp at h
  | cons p rest =>
    cases base2 with
    | nil => simp at h
    | cons q rest2 =>
      simp only [List.map_cons, List.cons.injEq] at h
      obtain ⟨hdq, hrest⟩ := h
      simp only [calculateProjection]
      rw [hdq, calculateProjectionAux_dates_only _ _ rest rest2 hrest]

/-- Closed instance of the C10 theorem: same dates, different amounts,
identical outputs. -/
theorem calculateProjection_depends_only_on_dates_witness :
    ([⟨0, 1⟩, ⟨1, 2⟩] : List BasePoint).map BasePoint.date =
        ([⟨0, 77⟩, ⟨1, 88⟩] : List BasePoint).map BasePoint.date ∧
      calculateProjection [⟨0, 1⟩, ⟨1, 2⟩] 100 (1 / 2) [⟨0, 10, CashFlowType.deposit⟩] =
        calculateProjection [⟨0, 77⟩, ⟨1, 88⟩] 100 (1 / 2) [⟨0, 10, CashFlowType.deposit⟩] :=
  ⟨rfl, calculateProjection_depends_only_on_dates [⟨0, 1⟩, ⟨1, 2⟩] [⟨0, 77⟩, ⟨1, 88⟩] rfl
    100 (1 / 2) [⟨0, 10, CashFlowType.deposit⟩]⟩

/-! ## Claims C4 and C9 — the actual-performance estimator -/

/-- C4: evaluation of `calculateActualAverageIncrease` at the failing
input of the test `should calculate growth with different interval days`
(10000 on 2025-10-09, 12000 on 2025-10-23, `intervalDays = 5`).  Ten
business days elapse and the claimed (and tested) computation prescribes
`dailyRate = cumulativeReturn^(1/totalBusinessDays) − 1 = (6/5)^(1/10) − 1
≈ 0.01844` and an interval percentage of about 9.54; the source instead
returns the raw total increase 20 and a daily rate with root exponent
`1/intervalDays = 1/5` (growth factor 6/5), i.e. `(6/5)^(1/5) − 1 ≈
0.0371`, and ignores the cash-flow list entirely (it has no such
parameter). -/
theorem calculateActualAverageIncrease_failing_input :
    calculateActualAverageIncrease
        [⟨daysFromCivil 2025 10 9, 10000⟩, ⟨daysFromCivil 2025 10 23, 12000⟩] 5 =
        some ⟨6 / 5, 20⟩ ∧
      specTotalBusinessDays
        [⟨daysFromCivil 2025 10 9, 10000⟩, ⟨daysFromCivil 2025 10 23, 12000⟩] = 10 ∧
      specCumulativeReturn
        [⟨daysFromCivil 2025 10 9, 10000⟩, ⟨daysFromCivil 2025 10 23, 12000⟩] [] = 6 / 5 ∧
      (10 ≠ 5) := by
  have h9 : daysFromCivil 2025 10 9 = 20370 := by decide
  have h23 : daysFromCivil 2025 10 23 = 20384 := by decide
  rw [h9, h23]
  refine ⟨?_, ?_, ?_, by norm_num⟩
  · norm_num [calculateActualAverageIncrease, sortByDate, insertByDate]
  · decide
  · norm_num [specCumulativeReturn, specNetCashFlow, sortByDate, insertByDate, List.filter]

/-- C9: the estimator returns the no-result sentinel exactly when the
actual series has fewer than two points or the chronologically first
(sorted head) amount is not strictly positive; otherwise it returns a
result. -/
theorem calculateActualAverageIncrease_none_iff
    (actualData : List ActualDataPoint) (intervalDays : ℕ) :
    calculateActualAverageIncrease actualData intervalDays = none ↔
      (actualData.length < 2 ∨
        ∃ p, (sortByDate actualData).head? = some p ∧ p.amount ≤ 0) := by
  unfold calculateActualAverageIncrease
  by_cases h2 : actualData.length < 2
  · simp [h2]
  · have hlen : (sortByDate actualData).length = actualData.length := sortByDate_length actualData
    have hne : sortByDate actualData ≠ [] := by
      intro h
      rw [h] at hlen
      simp at hlen
      omega
    obtain ⟨p0, l0, hcons⟩ := List.exists_cons_of_ne_nil hne
    rw [if_neg h2, hcons]
    by_cases hp : p0.amount ≤ 0
    · simp [hp, h2]
    · simp [hp, h2]

/-! ## Claim C8 — first point of the dense daily series -/

theorem countBusinessDays_self (d : ℤ) : countBusinessDays d d = 0 := by
  simp [countBusinessDays]

theorem milestonesAux_date_lt (intervalDays : ℕ) (increasePercent : ℚ) (endD : ℤ)
    (hi : 1 ≤ intervalDays) :
    ∀ (fuel : ℕ) (date : ℤ) (amt : ℚ) (bdn : ℕ) (m : Milestone),
      m ∈ milestonesAux intervalDays increasePercent endD fuel date amt bdn →
        date < m.date := by
  intro fuel
  induction fuel with
  | zero =>
    intro date amt bdn m hm
    simp [milestonesAux] at hm
  | succ k ih =>
    intro date amt bdn m hm
    unfold milestonesAux at hm
    split at hm
    · dsimp only at hm
      split at hm
      · simp at hm
      · rw [List.mem_cons] at hm
        rcases hm with rfl | hm
        · exact lt_addBusinessDays date intervalDays hi
        · exact lt_trans (lt_addBusinessDays date intervalDays hi) (ih _ _ _ m hm)
    · simp at hm

theorem findMilestoneIndexAux_eq_zero (ms : List Milestone) (d : ℤ)
    (h : ∀ j, 1 ≤ j → ∀ m, ms[j]? = some m → d < m.date) :
    ∀ k, findMilestoneIndexAux ms d k = 0 := by
  intro k
  induction k with
  | zero => rfl
  | succ j ihj =>
    unfold findMilestoneIndexAux
    by_cases hj0 : j = 0
    · subst hj0
      split
      · rfl
      · exact ihj
    · have hj1 : 1 ≤ j := Nat.one_le_iff_ne_zero.mpr hj0
      have hcond : ((ms[j]?).any fun m => decide (m.date ≤ d)) = false := by
        cases hm : ms[j]? with
        | none => rfl
        | some m =>
          have := h j hj1 m hm
          simp [Option.any]
          omega
      rw [hcond]
      simpa using ihj

theorem interpolatedAmount_at_start (config : TrackerConfig) (endD : ℤ)
    (hi : 1 ≤ config.intervalDays) :
    interpolatedAmount (milestones config endD) config.startDate = config.startingAmount := by
  have hall : ∀ m ∈ milestonesAux config.intervalDays config.projectedIncreasePercent endD
      ((endD - config.startDate).toNat + 1) config.startDate config.startingAmount 0,
      config.startDate < m.date :=
    fun m hm => milestonesAux_date_lt config.intervalDays config.projectedIncreasePercent endD hi
      _ _ _ _ m hm
  have hidx : findMilestoneIndex (milestones config endD) config.startDate = 0 := by
    apply findMilestoneIndexAux_eq_zero
    intro j hj m hm
    unfold milestones at hm
    cases j with
    | zero => omega
    | succ i =>
      rw [List.getElem?_cons_succ] at hm
      exact hall m (List.getElem?_mem hm)
  unfold interpolatedAmount
  rw [hidx]
  unfold milestones
  cases htail : milestonesAux config.intervalDays config.projectedIncreasePercent endD
      ((endD - config.startDate).toNat + 1) config.startDate config.startingAmount 0 with
  | nil => simp
  | cons m1 t =>
    have h1 : config.startDate < m1.date := by
      apply hall
      rw [htail]
      exact List.mem_cons_self m1 t
    simp only [List.getElem?_cons_succ, List.getElem?_cons_zero]
    rw [if_neg (by omega : ¬config.startDate = m1.date)]
    rw [countBusinessDays_self]
    split
    · norm_num
    · norm_num

/-- C8: for every configuration with `intervalDays ≥ 1` and any end date
not before the start date, the dense daily series starts exactly at the
scenario start date with amount exactly `startingAmount` (and day number
0). -/
theorem calculateProjectedValues_head (config : TrackerConfig) (endD : ℤ)
    (hi : 1 ≤ config.intervalDays) (hse : config.startDate ≤ endD) :
    (calculateProjectedValues config endD).head? =
      some ⟨config.startDate, config.startingAmount, 0⟩ := by
  unfold calculateProjectedValues
  rw [if_neg (not_lt.mpr hse)]
  simp only [List.range_succ_eq_map, List.map_cons, List.head?_cons, Option.some.injEq]
  have hd : config.startDate + ((0 : ℕ) : ℤ) = config.startDate := by norm_num
  rw [hd, interpolatedAmount_at_start config endD hi]

/-- Closed instance of the C8 theorem at a concrete configuration. -/
theorem calculateProjectedValues_head_witness :
    (1 ≤ 5 ∧ (0 : ℤ) ≤ 14) ∧
      (calculateProjectedValues ⟨0, 10000, 10, 5⟩ 14).head? = some ⟨0, 10000, 0⟩ :=
  ⟨⟨by norm_num, by norm_num⟩,
   calculateProjectedValues_head ⟨0, 10000, 10, 5⟩ 14 (by norm_num) (by norm_num)⟩

/-! ## Claim C7 — volatility -/

theorem foldl_add_eq_sum (l : List ℚ) (a : ℚ) :
    l.foldl (fun sum r => sum + r) a = a + l.sum := by
  induction l generalizing a with
  | nil => simp
  | cons r t ih =>
    simp only [List.foldl_cons, List.sum_cons, ih]
    ring

theorem foldl_sq_eq_sum (m : ℚ) (l : List ℚ) (a : ℚ) :
    l.foldl (fun sum r => sum + (r - m) * (r - m)) a =
      a + (l.map (fun r => (r - m) ^ 2)).sum := by
  induction l generalizing a with
  | nil => simp
  | cons r t ih =>
    simp only [List.foldl_cons, List.map_cons, List.sum_cons, ih]
    ring

/-- C7 counterexample: with a withdrawal stored as a positive magnitude
(three equal-valued points, a 1000 withdrawal between the first two),
the step returns `calculateVolatility` aggregates are the raw-sum returns
`[-100/11, 0]`, not the claimed cash-flow-adjusted returns `[100/9, 0]`,
and its variance 2500/121 is not the variance 2500/81 of the
cash-flow-adjusted returns — the same sign divergence as in C1/C2. -/
theorem calculateVolatility_magnitude_withdrawal_mismatch :
    (calculateVolatility [⟨0, 10000⟩, ⟨4, 10000⟩, ⟨8, 10000⟩]
        [⟨2, 1000, CashFlowType.withdrawal⟩] 30).returns = [-100 / 11, 0] ∧
      specTrimmedReturns 30 (specStepReturns [⟨0, 10000⟩, ⟨4, 10000⟩, ⟨8, 10000⟩]
        [⟨2, 1000, CashFlowType.withdrawal⟩]) = [100 / 9, 0] ∧
      ([-100 / 11, 0] : List ℚ) ≠ [100 / 9, 0] ∧
      (calculateVolatility [⟨0, 10000⟩, ⟨4, 10000⟩, ⟨8, 10000⟩]
        [⟨2, 1000, CashFlowType.withdrawal⟩] 30).variance = 2500 / 121 ∧
      specVariance (specTrimmedReturns 30 (specStepReturns [⟨0, 10000⟩, ⟨4, 10000⟩, ⟨8, 10000⟩]
        [⟨2, 1000, CashFlowType.withdrawal⟩])) = 2500 / 81 ∧
      ((2500 / 121 : ℚ) ≠ 2500 / 81) := by
  refine ⟨?_, ?_, ?_, ?_, ?_, ?_⟩
  · norm_num [calculateVolatility, sortByDate, insertByDate, calculateReturn, List.filter]
  · norm_num [specTrimmedReturns, lastN, specStepReturns, specReturn, specNetCashFlow,
      signedMagnitude, sortByDate, insertByDate, List.filter]
  · norm_num
  · norm_num [calculateVolatility, sortByDate, insertByDate, calculateReturn, List.filter]
  · norm_num [specVariance, specMean, specTrimmedReturns, lastN, specStepReturns, specReturn,
      specNetCashFlow, signedMagnitude, sortByDate, insertByDate, List.filter]
  · norm_num

/-- C7 (amended): whenever every stored amount carries the sign of its
`type` (the convention of the analytics tests), for a series of at least
two points `calculateVolatility` returns the step-wise cash-flow-adjusted
returns between consecutive sorted points (trimmed to the most recent
`periodDays` steps when a positive period is given), their variance — the
square of the standard deviation of that sample — and the annualized
square `variance × 252` (i.e. the annualized volatility is the standard
deviation multiplied by √252).  With a magnitude-stored withdrawal the
aggregated step returns are not the cash-flow-adjusted ones, as the
counterexample shows. -/
theorem calculateVolatility_spec (actualData : List ActualDataPoint)
    (cashFlows : List CashFlow) (periodDays : ℕ) (h2 : 2 ≤ actualData.length)
    (hsc : SignConsistent cashFlows) :
    calculateVolatility actualData cashFlows periodDays =
      { variance := specVariance (specTrimmedReturns periodDays (specStepReturns actualData cashFlows))
        annualizedVariance :=
          specVariance (specTrimmedReturns periodDays (specStepReturns actualData cashFlows)) * 252
        returns := specTrimmedReturns periodDays (specStepReturns actualData cashFlows) } := by
  have hlen : (sortByDate actualData).length = actualData.length := sortByDate_length actualData
  have hretlen : (specStepReturns actualData cashFlows).length = actualData.length - 1 := by
    unfold specStepReturns
    rw [List.length_map, List.length_zip, List.length_tail, hlen]
    omega
  unfold calculateVolatility
  rw [if_neg (by omega : ¬actualData.length < 2)]
  dsimp only
  have hret : ((sortByDate actualData).zip (sortByDate actualData).tail).map
      (fun pq => calculateReturn pq.1.amount pq.2.amount cashFlows pq.1.date pq.2.date) =
      specStepReturns actualData cashFlows := by
    unfold specStepReturns
    dsimp only
    refine List.map_congr_left (fun pq _ => ?_)
    exact calculateReturn_eq_specReturn_aux pq.1.amount pq.2.amount cashFlows
      pq.1.date pq.2.date hsc
  rw [hret]
  have htrim :
      (if 0 < periodDays ∧ periodDays < (specStepReturns actualData cashFlows).length then
          (specStepReturns actualData cashFlows).drop
            ((specStepReturns actualData cashFlows).length - periodDays)
        else specStepReturns actualData cashFlows) =
      specTrimmedReturns periodDays (specStepReturns actualData cashFlows) := by
    unfold specTrimmedReturns lastN
    by_cases hp : 0 < periodDays
    · by_cases hpl : periodDays < (specStepReturns actualData cashFlows).length
      · rw [if_pos ⟨hp, hpl⟩, if_pos hp]
      · rw [if_neg (by tauto), if_pos hp,
          Nat.sub_eq_zero_of_le (by omega), List.drop_zero]
    · rw [if_neg (by tauto), if_neg hp]
  rw [htrim]
  have hkeptlen : 1 ≤ (specTrimmedReturns periodDays (specStepReturns actualData cashFlows)).length := by
    unfold specTrimmedReturns lastN
    split
    · rw [List.length_drop]
      omega
    · omega
  rw [if_neg (by omega : ¬(specTrimmedReturns periodDays (specStepReturns actualData cashFlows)).length = 0)]
  have hmean :
      ((specTrimmedReturns periodDays (specStepReturns actualData cashFlows)).foldl
          (fun sum r => sum + r) 0) /
        (specTrimmedReturns periodDays (specStepReturns actualData cashFlows)).length =
      specMean (specTrimmedReturns periodDays (specStepReturns actualData cashFlows)) := by
    rw [foldl_add_eq_sum, zero_add]
    rfl
  rw [hmean, foldl_sq_eq_sum, zero_add]
  rfl

/-- Closed instance of the C7 theorem at a concrete three-point series
with a sign-consistent withdrawal. -/
theorem calculateVolatility_spec_witness :
    (2 ≤ ([⟨0, 100⟩, ⟨1, 110⟩, ⟨4, 99⟩] : List ActualDataPoint).length ∧
        SignConsistent [⟨1, -500, CashFlowType.withdrawal⟩]) ∧
      calculateVolatility [⟨0, 100⟩, ⟨1, 110⟩, ⟨4, 99⟩]
          [⟨1, -500, CashFlowType.withdrawal⟩] 30 =
        { variance := specVariance (specTrimmedReturns 30
            (specStepReturns [⟨0, 100⟩, ⟨1, 110⟩, ⟨4, 99⟩] [⟨1, -500, CashFlowType.withdrawal⟩]))
          annualizedVariance :=
            specVariance (specTrimmedReturns 30
              (specStepReturns [⟨0, 100⟩, ⟨1, 110⟩, ⟨4, 99⟩]
                [⟨1, -500, CashFlowType.withdrawal⟩])) * 252
          returns := specTrimmedReturns 30
            (specStepReturns [⟨0, 100⟩, ⟨1, 110⟩, ⟨4, 99⟩]
              [⟨1, -500, CashFlowType.withdrawal⟩]) } := by
  have hsc : SignConsistent [⟨1, -500, CashFlowType.withdrawal⟩] := by
    intro cf hcf
    rw [List.mem_singleton] at hcf
    subst hcf
    exact ⟨(fun h => nomatch h), (fun _ => by norm_num)⟩
  exact ⟨⟨by norm_num, hsc⟩,
    calculateVolatility_spec [⟨0, 100⟩, ⟨1, 110⟩, ⟨4, 99⟩]
      [⟨1, -500, CashFlowType.withdrawal⟩] 30 (by norm_num) hsc⟩

/-! ## Claim C6 — drawdown inequalities -/

theorem drawdownStep_maxDrawdown_le (s : DrawdownState) (p : AdjustedPoint) :
    s.maxDrawdown ≤ (drawdownStep s p).maxDrawdown := by
  unfold drawdownStep
  split
  · exact le_refl _
  · dsimp only
    split <;> split
    · rename_i h
      exact le_of_lt h
    · exact le_refl _
    · rename_i h
      exact le_of_lt h
    · exact le_refl _

theorem foldl_drawdownStep_maxDrawdown_le (l : List AdjustedPoint) (s : DrawdownState) :
    s.maxDrawdown ≤ (l.foldl drawdownStep s).maxDrawdown := by
  induction l generalizing s with
  | nil => exact le_refl _
  | cons p t ih => exact le_trans (drawdownStep_maxDrawdown_le s p) (ih _)

/-- C6 counterexample: amounts 100 then 50 with a 200 deposit dated at the
first point give a negative neutralized peak (−100); the final guard of
`calculateDrawdown` checks only `peak > last` — not `peak > 0` — so
`currentDrawdown` comes out −50, violating `currentDrawdown ≥ 0`. -/
theorem calculateDrawdown_negative_currentDrawdown :
    (calculateDrawdown [⟨0, 100⟩, ⟨1, 50⟩] [⟨0, 200, CashFlowType.deposit⟩]).currentDrawdown
        = -50 ∧
      ¬(0 ≤ (calculateDrawdown [⟨0, 100⟩, ⟨1, 50⟩]
        [⟨0, 200, CashFlowType.deposit⟩]).currentDrawdown) := by
  have h : (calculateDrawdown [⟨0, 100⟩, ⟨1, 50⟩]
      [⟨0, 200, CashFlowType.deposit⟩]).currentDrawdown = -50 := by
    norm_num [calculateDrawdown, adjustedData, sortByDate, insertByDate, cumulativeRawCashFlow,
      drawdownFold, drawdownInit, drawdownStep, List.filter]
  refine ⟨h, ?_⟩
  rw [h]
  norm_num

/-- C6 (amended): for a non-empty actual series whose final running peak of
neutralized values is positive, the returned analysis satisfies
`0 ≤ currentDrawdown`, `currentDrawdown ≤ maxDrawdown` and
`0 ≤ maxDrawdown` (when the running peak ends non-positive the loop
`peak > 0` guard zeroes every loop drawdown but the final
`currentDrawdown` computation lacks that guard and can go negative, as the
counterexample shows). -/
theorem calculateDrawdown_inequalities_of_pos_peak
    (actualData : List ActualDataPoint) (cashFlows : List CashFlow)
    (a : AdjustedPoint) (rest : List AdjustedPoint)
    (hadj : adjustedData actualData cashFlows = a :: rest)
    (hpeak : 0 < (drawdownFold a rest).peak) :
    0 ≤ (calculateDrawdown actualData cashFlows).currentDrawdown ∧
      (calculateDrawdown actualData cashFlows).currentDrawdown ≤
        (calculateDrawdown actualData cashFlows).maxDrawdown ∧
      0 ≤ (calculateDrawdown actualData cashFlows).maxDrawdown := by
  obtain ⟨L, b, hlb⟩ : ∃ L b, a :: rest = List.concat L b := by
    rcases List.eq_nil_or_concat (a :: rest) with h | h
    · exact absurd h (List.cons_ne_nil a rest)
    · exact h
  rw [List.concat_eq_append] at hlb
  have hfold : drawdownFold a rest =
      drawdownStep (L.foldl drawdownStep (drawdownInit a)) b := by
    unfold drawdownFold
    rw [hlb, List.foldl_append, List.foldl_cons, List.foldl_nil]
  have hlast : (a :: rest).getLast (List.cons_ne_nil a rest) = b := by
    have h1 := List.getLast?_eq_getLast (a :: rest) (List.cons_ne_nil a rest)
    have h2 : (a :: rest).getLast? = some b := by
      rw [hlb]
      exact List.getLast?_concat _
    rw [h2] at h1
    exact (Option.some.injEq _ _ ▸ h1).symm
  set s0 := L.foldl drawdownStep (drawdownInit a) with hs0
  have hmax0 : 0 ≤ s0.maxDrawdown := by
    have := foldl_drawdownStep_maxDrawdown_le L (drawdownInit a)
    simpa [drawdownInit] using this
  unfold calculateDrawdown
  rw [hadj]
  dsimp only
  rw [hlast, hfold]
  rw [hfold] at hpeak
  by_cases hb : s0.peak < b.adjustedAmount
  · have hpk : (drawdownStep s0 b).peak = b.adjustedAmount := by
      unfold drawdownStep
      rw [if_pos hb]
    have hmx : (drawdownStep s0 b).maxDrawdown = s0.maxDrawdown := by
      unfold drawdownStep
      rw [if_pos hb]
    rw [hpk, hmx, if_neg (lt_irrefl b.adjustedAmount)]
    exact ⟨le_refl 0, hmax0, hmax0⟩
  · have hpk : (drawdownStep s0 b).peak = s0.peak := by
      unfold drawdownStep
      rw [if_neg hb]
      dsimp only
      split <;> split <;> rfl
    have hpos : 0 < s0.peak := by
      rw [hpk] at hpeak
      exact hpeak
    have hddn : 0 ≤ (s0.peak - b.adjustedAmount) / s0.peak * 100 := by
      have h1 : 0 ≤ s0.peak - b.adjustedAmount := by
        have := not_lt.mp hb
        linarith
      positivity
    have hmaxdd : (s0.peak - b.adjustedAmount) / s0.peak * 100 ≤
        (drawdownStep s0 b).maxDrawdown := by
      unfold drawdownStep
      rw [if_neg hb]
      dsimp only
      rw [if_pos hpos]
      split
      · exact le_refl _
      · rename_i h
        exact not_lt.mp h
    have hmaxnn : 0 ≤ (drawdownStep s0 b).maxDrawdown :=
      le_trans hmax0 (drawdownStep_maxDrawdown_le s0 b)
    rw [hpk]
    by_cases hb2 : b.adjustedAmount < s0.peak
    · rw [if_pos hb2]
      exact ⟨hddn, hmaxdd, hmaxnn⟩
    · rw [if_neg hb2]
      exact ⟨le_refl 0, hmaxnn, hmaxnn⟩

/-- Closed instance of the C6 theorem at a concrete series in drawdown. -/
theorem calculateDrawdown_inequalities_witness :
    0 ≤ (calculateDrawdown [⟨0, 10000⟩, ⟨1, 9000⟩] []).currentDrawdown ∧
      (calculateDrawdown [⟨0, 10000⟩, ⟨1, 9000⟩] []).currentDrawdown ≤
        (calculateDrawdown [⟨0, 10000⟩, ⟨1, 9000⟩] []).maxDrawdown ∧
      0 ≤ (calculateDrawdown [⟨0, 10000⟩, ⟨1, 9000⟩] []).maxDrawdown :=
  calculateDrawdown_inequalities_of_pos_peak [⟨0, 10000⟩, ⟨1, 9000⟩] []
    ⟨0, 10000, 10000⟩ [⟨1, 9000, 9000⟩]
    (by norm_num [adjustedData, sortByDate, insertByDate, cumulativeRawCashFlow, List.filter])
    (by norm_num [drawdownFold, drawdownInit, drawdownStep])

end Ibkr
